import Mathlib

/-
Verification of the routing/dispatch core of a minimal HTTP greeting server.

The application code (src/src/main.rs) registers the handler `greet` on the
two GET routes "/" and "/{name}", binds "127.0.0.1:8000" and serves.  The
routing and dispatch machinery itself lives in the web framework, not in the
repository, so the router core below (path patterns, route table, matcher,
dispatcher, server loop) is modelled from the specification; the handler
`greet`, the registered route set and the bind address are translated from
the source.
-/

namespace MiniHttp

/-- Modelled from the spec (§3 PathPattern): one slash-delimited component of
a route template, either a literal segment or a named parameter segment. -/
inductive Segment where
  | Literal (text : String)
  | Param (pname : String)
deriving DecidableEq

/-- Modelled from the spec (§4.1): registration-time pattern errors. -/
inductive PatternError where
  | emptySegment
  | duplicateParam
  | malformedParam
deriving DecidableEq

/-- Split a character list on a separator character, keeping empty groups. -/
def splitOnChar (sep : Char) : List Char → List (List Char)
  | [] => [[]]
  | c :: cs =>
    if c = sep then [] :: splitOnChar sep cs
    else
      match splitOnChar sep cs with
      | [] => [[c]]
      | g :: gs => (c :: g) :: gs

/-- Modelled from the spec (§4.3): split a path into its slash-delimited
segments; the root path "/" has no segments, otherwise the leading slash is
dropped and the remainder is split on the separator. -/
def splitPath (p : String) : List String :=
  if p = "/" then []
  else (splitOnChar '/' (p.data.drop 1)).map fun cs => String.mk cs

/-- Modelled from the spec (§4.1): a segment enclosed in braces becomes
`Param(name)`; an unterminated parameter marker is malformed; an empty
segment is invalid; anything else is `Literal(text)`. -/
def parseSegment (s : String) : Except PatternError Segment :=
  match s.data with
  | [] => .error .emptySegment
  | c :: cs =>
    if c = '\x7b' then
      match cs.getLast? with
      | some d =>
        if d = '\x7d' then .ok (.Param (String.mk cs.dropLast))
        else .error .malformedParam
      | none => .error .malformedParam
    else .ok (.Literal s)

/-- Names of the parameter segments of a pattern, in order. -/
def paramNames (segs : List Segment) : List String :=
  segs.filterMap fun s =>
    match s with
    | .Param n => some n
    | .Literal _ => none

/-- All names in the list are pairwise distinct. -/
def distinctNames : List String → Bool
  | [] => true
  | n :: ns => (!ns.contains n) && distinctNames ns

/-- Modelled from the spec (§4.1): parse a route template into a pattern,
failing with `InvalidPattern` on an empty segment, a duplicate parameter
name, or malformed parameter syntax. -/
def parseTemplate (t : String) : Except PatternError (List Segment) := do
  let segs ← (splitPath t).mapM parseSegment
  if distinctNames (paramNames segs) then pure segs
  else .error .duplicateParam

/-- Modelled from the spec (§6): a response is a status code, headers and a
body. -/
structure Response where
  status : Nat
  headers : List (String × String)
  body : String
deriving DecidableEq

/-- Modelled from the spec (§3 RequestContext): method, raw path, extracted
parameter mapping and body of one request. -/
structure RequestContext where
  method : String
  path : String
  params : List (String × String)
  body : String

/-- Modelled from the spec (§4.4): a handler accepts a RequestContext and
produces a value convertible to a Response, or fails. -/
def Handler : Type := RequestContext → Except String Response

/-- Modelled from the spec (§3 RouteEntry): HTTP method, parsed pattern and
handler reference. -/
structure RouteEntry where
  method : String
  pattern : List Segment
  handler : Handler

/-- Modelled from the spec (§4.2): `register` parses the template and appends
a RouteEntry, failing with `InvalidPattern` on parse failure. -/
def register (table : List RouteEntry) (m tmpl : String) (h : Handler) :
    Except PatternError (List RouteEntry) :=
  (parseTemplate tmpl).map fun segs => table ++ [⟨m, segs, h⟩]

/-- Modelled from the spec (§4.3): walk pattern segments pairwise against
path segments; a `Literal` matches only the identical segment, a `Param`
matches any non-empty segment and records the binding; different lengths
never match. -/
def matchSegs : List Segment → List String → Option (List (String × String))
  | [], [] => some []
  | .Literal t :: pat, s :: ss =>
    if t = s then matchSegs pat ss else none
  | .Param n :: pat, s :: ss =>
    if s = "" then none
    else (matchSegs pat ss).map fun ps => (n, s) :: ps
  | _ :: _, [] => none
  | [], _ :: _ => none

/-- Modelled from the spec (§4.3): one route entry matches when the method is
equal and the full segment sequence matches. -/
def entryMatch (e : RouteEntry) (m : String) (ss : List String) :
    Option (List (String × String)) :=
  if e.method = m then matchSegs e.pattern ss else none

/-- Modelled from the spec (§4.3): walk the route table in registration order
and return the first matching entry with its extracted parameters. -/
def findMatch : List RouteEntry → String → List String →
    Option (RouteEntry × List (String × String))
  | [], _, _ => none
  | e :: es, m, ss =>
    match entryMatch e m ss with
    | some ps => some (e, ps)
    | none => findMatch es m ss

/-- Standard not-found response produced on `NoMatch`. -/
def notFoundResponse : Response := ⟨404, [], "Not Found"⟩

/-- Standard internal-error response produced on handler failure. -/
def internalErrorResponse : Response := ⟨500, [], "Internal Server Error"⟩

/-- Modelled from the spec (§4.4): dispatch calls the Matcher; on `NoMatch` a
not-found response with no handler invocation, otherwise the handler runs on
a fresh RequestContext and a failure is converted into an internal-error
response at this boundary.  The second component counts handler invocations
(the spy counter of §8). -/
def dispatch (table : List RouteEntry) (m p body : String) : Response × Nat :=
  match findMatch table m (splitPath p) with
  | none => (notFoundResponse, 0)
  | some (e, ps) =>
    match e.handler ⟨m, p, ps, body⟩ with
    | .ok r => (r, 1)
    | .error _ => (internalErrorResponse, 1)

/-- Modelled from the spec (§4.5): one parsed request as the Server Loop
hands it to the Dispatcher. -/
structure Request where
  method : String
  path : String
  body : String

/-- Dispatch one parsed request. -/
def handle (table : List RouteEntry) (r : Request) : Response × Nat :=
  dispatch table r.method r.path r.body

/-- Modelled from the spec (§4.5): the Server Loop feeds each parsed request
to the Dispatcher and collects the responses; dispatches are independent. -/
def serverLoop (table : List RouteEntry) (reqs : List Request) :
    List (Response × Nat) :=
  reqs.map (handle table)

/-- Translated from src/src/main.rs (`greet`): read the matched path
parameter "name", defaulting to "World", and answer "Hello {name}!" as a
successful response. -/
def greet : Handler := fun req =>
  .ok ⟨200, [], "Hello " ++ ((List.lookup "name" req.params).getD "World") ++ "!"⟩

/-- Translated from src/src/main.rs (`main`): register `greet` on GET "/"
and on GET "/\x7bname\x7d", in that order. -/
def appRoutes : Except PatternError (List RouteEntry) := do
  let t ← register [] "GET" "/" greet
  register t "GET" "/\x7bname\x7d" greet

/-- The route table `appRoutes` builds: greet on GET "/" and GET "/\x7bname\x7d". -/
def appTable : List RouteEntry :=
  [⟨"GET", [], greet⟩, ⟨"GET", [.Param "name"], greet⟩]

/-- Translated from src/src/main.rs (`main`): the bind address literal. -/
def bindAddr : String := "127.0.0.1:8000"

/-- Translated from src/src/main.rs (`main`) and the spec (§7
TransportError): main binds the address and only then runs the server; the
bind error is propagated out of main by the question-mark operator.  The
Boolean records whether serving began. -/
def mainModel {σ : Type} (bindTo : String → Except String σ)
    (run : σ → Except String Unit) : Except String Unit × Bool :=
  match bindTo bindAddr with
  | .error e => (.error e, false)
  | .ok s => (run s, true)

/-- Modelled from the spec (§7): a process whose main returns an error exits
with status 1, otherwise with status 0. -/
def exitCode (r : Except String Unit) : Nat :=
  match r with
  | .ok _ => 0
  | .error _ => 1

/-- The matcher is on a prefix of the table before `e`, every entry of which
fails, and `e` itself matches with parameters `ps`: the first-match
characterisation of §4.3. -/
def firstMatchIs (table : List RouteEntry) (m : String) (ss : List String)
    (e : RouteEntry) (ps : List (String × String)) : Prop :=
  ∃ pre post, table = pre ++ e :: post ∧ entryMatch e m ss = some ps ∧
    ∀ e2 ∈ pre, entryMatch e2 m ss = none

theorem matchSegs_length :
    ∀ {pat : List Segment} {ss : List String} {ps : List (String × String)},
      matchSegs pat ss = some ps → pat.length = ss.length := by
  intro pat
  induction pat with
  | nil =>
    intro ss ps h
    cases ss with
    | nil => rfl
    | cons s ss => simp [matchSegs] at h
  | cons a pat ih =>
    intro ss ps h
    cases ss with
    | nil => cases a <;> simp [matchSegs] at h
    | cons s ss =>
      cases a with
      | Literal t =>
        by_cases hts : t = s
        · simp only [matchSegs, if_pos hts] at h
          simpa using ih h
        · simp [matchSegs, hts] at h
      | Param n =>
        by_cases hse : s = ""
        · simp [matchSegs, hse] at h
        · simp only [matchSegs, if_neg hse] at h
          rcases Option.map_eq_some'.mp h with ⟨ps2, hps2, -⟩
          simpa using ih hps2

theorem findMatch_cons_some {a : RouteEntry} {t : List RouteEntry}
    {m : String} {ss : List String} {ps : List (String × String)}
    (ha : entryMatch a m ss = some ps) :
    findMatch (a :: t) m ss = some (a, ps) := by
  rw [findMatch, ha]

theorem findMatch_cons_none {a : RouteEntry} {t : List RouteEntry}
    {m : String} {ss : List String} (ha : entryMatch a m ss = none) :
    findMatch (a :: t) m ss = findMatch t m ss := by
  rw [findMatch, ha]

theorem findMatch_eq_some_iff (table : List RouteEntry) (m : String)
    (ss : List String) (e : RouteEntry) (ps : List (String × String)) :
    findMatch table m ss = some (e, ps) ↔ firstMatchIs table m ss e ps := by
  induction table with
  | nil =>
    constructor
    · intro h
      simp [findMatch] at h
    · rintro ⟨pre, post, hdec, -, -⟩
      exact absurd hdec (by simp)
  | cons a t ih =>
    constructor
    · intro h
      cases ha : entryMatch a m ss with
      | some ps2 =>
        rw [findMatch_cons_some ha] at h
        have h2 := Option.some.inj h
        obtain ⟨rfl, rfl⟩ : a = e ∧ ps2 = ps :=
          ⟨congrArg Prod.fst h2, congrArg Prod.snd h2⟩
        exact ⟨[], t, rfl, ha, by intro e2 he2; cases he2⟩
      | none =>
        rw [findMatch_cons_none ha] at h
        obtain ⟨pre, post, hdec, hm, hpre⟩ := ih.mp h
        refine ⟨a :: pre, post, by rw [hdec]; rfl, hm, ?_⟩
        intro e2 he2
        rcases List.mem_cons.mp he2 with rfl | h2
        · exact ha
        · exact hpre e2 h2
    · rintro ⟨pre, post, hdec, hm, hpre⟩
      cases pre with
      | nil =>
        obtain ⟨rfl, rfl⟩ : a = e ∧ t = post := by simpa using hdec
        exact findMatch_cons_some hm
      | cons b pre2 =>
        obtain ⟨rfl, ht⟩ : a = b ∧ t = pre2 ++ e :: post := by simpa using hdec
        have hb : entryMatch a m ss = none := hpre a (List.mem_cons_self a pre2)
        rw [findMatch_cons_none hb]
        exact ih.mpr ⟨pre2, post, ht, hm, fun e2 h2 => hpre e2 (List.mem_cons_of_mem _ h2)⟩

theorem findMatch_mem {table : List RouteEntry} {m : String}
    {ss : List String} {e : RouteEntry} {ps : List (String × String)}
    (h : findMatch table m ss = some (e, ps)) : e ∈ table := by
  obtain ⟨pre, post, hdec, -, -⟩ := (findMatch_eq_some_iff table m ss e ps).mp h
  rw [hdec]
  exact List.mem_append_right _ (List.mem_cons_self e post)

theorem findMatch_none {table : List RouteEntry} {m : String}
    {ss : List String} (h : ∀ e ∈ table, entryMatch e m ss = none) :
    findMatch table m ss = none := by
  induction table with
  | nil => rfl
  | cons a t ih =>
    rw [findMatch_cons_none (h a (List.mem_cons_self a t))]
    exact ih fun e he => h e (List.mem_cons_of_mem _ he)

/-- Marker handler for the parameter route of the precedence example. -/
def paramRouteMarker : Handler := fun _ => .ok ⟨200, [], "param route"⟩

/-- Marker handler for the literal route of the precedence example. -/
def adminRouteMarker : Handler := fun _ => .ok ⟨200, [], "admin literal route"⟩

/-- The precedence example of §4.3: the parameter pattern registered before
the literal pattern "/admin". -/
def paramBeforeAdminTable : List RouteEntry :=
  [⟨"GET", [.Param "name"], paramRouteMarker⟩,
   ⟨"GET", [.Literal "admin"], adminRouteMarker⟩]

/-- A handler that always fails, for exercising the internal-error branch. -/
def boomHandler : Handler := fun _ => .error "boom"

/-- A one-route table whose handler always fails. -/
def failTable : List RouteEntry := [⟨"GET", [], boomHandler⟩]

/-- C1: with `greet` bound to both GET "/" and GET "/\x7bname\x7d" (the table
`appRoutes` registers), dispatching GET "/" yields body "Hello World!" (the
default, no parameter segment present) and dispatching GET "/Ada" yields
body "Hello Ada!" (the parameter interpolated into the greeting). -/
theorem greet_dispatch_greetings :
    appRoutes = .ok appTable ∧
    ∀ body : String,
      dispatch appTable "GET" "/" body = (⟨200, [], "Hello World!"⟩, 1) ∧
      dispatch appTable "GET" "/Ada" body = (⟨200, [], "Hello Ada!"⟩, 1) :=
  ⟨rfl, fun _ => ⟨rfl, rfl⟩⟩

/-- C2: matcher precedence is strictly registration order — `findMatch`
returns exactly the first entry in registration order whose method and full
segment sequence match; in particular with "/\x7bname\x7d" registered before
the literal "/admin", GET "/admin" matches the parameter route with
name = "admin", not the later literal route. -/
theorem matcher_registration_order_precedence :
    (∀ (table : List RouteEntry) (m : String) (ss : List String)
       (e : RouteEntry) (ps : List (String × String)),
       findMatch table m ss = some (e, ps) ↔ firstMatchIs table m ss e ps) ∧
    findMatch paramBeforeAdminTable "GET" ["admin"] =
      some (⟨"GET", [.Param "name"], paramRouteMarker⟩, [("name", "admin")]) :=
  ⟨findMatch_eq_some_iff, rfl⟩

/-- C3: a pattern never matches a path with a different number of segments —
`matchSegs` fails on length mismatch, and any entry the matcher returns has
pattern length equal to the path's segment count. -/
theorem matcher_segment_count_exact :
    ∀ (pat : List Segment) (ss : List String) (table : List RouteEntry)
      (m : String) (e : RouteEntry) (ps : List (String × String)),
      (pat.length ≠ ss.length → matchSegs pat ss = none) ∧
      (findMatch table m ss = some (e, ps) → e.pattern.length = ss.length) := by
  intro pat ss table m e ps
  constructor
  · intro hne
    cases hm : matchSegs pat ss with
    | none => rfl
    | some ps2 => exact absurd (matchSegs_length hm) hne
  · intro h
    obtain ⟨pre, post, hdec, hm, -⟩ := (findMatch_eq_some_iff table m ss e ps).mp h
    unfold entryMatch at hm
    split at hm
    · exact matchSegs_length hm
    · exact absurd hm (by simp)

/-- Witness for C3 at a concrete length mismatch and a concrete match. -/
theorem matcher_segment_count_exact_witness :
    ([Segment.Param "name"].length ≠ (["x", "y"] : List String).length ∧
     matchSegs [Segment.Param "name"] ["x", "y"] = none) ∧
    (findMatch appTable "GET" ["Ada"] =
       some (⟨"GET", [.Param "name"], greet⟩, [("name", "Ada")]) ∧
     (⟨"GET", [.Param "name"], greet⟩ : RouteEntry).pattern.length =
       (["Ada"] : List String).length) :=
  ⟨⟨by decide,
    (matcher_segment_count_exact [Segment.Param "name"] ["x", "y"] appTable
      "GET" ⟨"GET", [.Param "name"], greet⟩ [("name", "Ada")]).1 (by decide)⟩,
   ⟨rfl,
    (matcher_segment_count_exact [Segment.Param "name"] ["Ada"] appTable
      "GET" ⟨"GET", [.Param "name"], greet⟩ [("name", "Ada")]).2 rfl⟩⟩

/-- C4: when a pattern with a `Param(n)` segment at position i matches a
path, the recorded value for n is exactly the path segment at position i,
and that segment is non-empty. -/
theorem matcher_param_extraction :
    ∀ (pat : List Segment) (ss : List String) (ps : List (String × String))
      (i : Nat) (n : String),
      matchSegs pat ss = some ps → pat[i]? = some (.Param n) →
      ∃ v, ss[i]? = some v ∧ v ≠ "" ∧ (n, v) ∈ ps := by
  intro pat
  induction pat with
  | nil =>
    intro ss ps i n h hi
    simp at hi
  | cons a pat ih =>
    intro ss ps i n h hi
    cases ss with
    | nil => cases a <;> simp [matchSegs] at h
    | cons s ss =>
      cases a with
      | Literal t =>
        by_cases hts : t = s
        · simp only [matchSegs, if_pos hts] at h
          cases i with
          | zero => simp at hi
          | succ i =>
            simp only [List.getElem?_cons_succ] at hi
            obtain ⟨v, hv, hne, hmem⟩ := ih ss ps i n h hi
            exact ⟨v, by simpa using hv, hne, hmem⟩
        · simp [matchSegs, hts] at h
      | Param pn =>
        by_cases hse : s = ""
        · simp [matchSegs, hse] at h
        · simp only [matchSegs, if_neg hse] at h
          rcases Option.map_eq_some'.mp h with ⟨ps2, hps2, rfl⟩
          cases i with
          | zero =>
            simp only [List.getElem?_cons_zero, Option.some.injEq,
              Segment.Param.injEq] at hi
            subst hi
            exact ⟨s, by simp, hse, List.mem_cons_self _ _⟩
          | succ i =>
            simp only [List.getElem?_cons_succ] at hi
            obtain ⟨v, hv, hne, hmem⟩ := ih ss ps2 i n hps2 hi
            exact ⟨v, by simpa using hv, hne, List.mem_cons_of_mem _ hmem⟩

/-- Witness for C4 at the concrete match of "/Ada" against the name route. -/
theorem matcher_param_extraction_witness :
    (matchSegs [Segment.Param "name"] ["Ada"] = some [("name", "Ada")] ∧
     ([Segment.Param "name"])[0]? = some (Segment.Param "name")) ∧
    ∃ v, (["Ada"] : List String)[0]? = some v ∧ v ≠ "" ∧
      ("name", v) ∈ [("name", "Ada")] :=
  ⟨⟨rfl, rfl⟩,
   matcher_param_extraction [Segment.Param "name"] ["Ada"] [("name", "Ada")]
     0 "name" rfl rfl⟩

/-- C5: a request matching no route entry is answered with the standard
not-found response and zero handler invocations; a two-segment path such as
"/x/y" matches nothing when only patterns of at most one segment are
registered. -/
theorem dispatch_no_match_not_found :
    ∀ (table : List RouteEntry) (m p body : String),
      (findMatch table m (splitPath p) = none →
        dispatch table m p body = (notFoundResponse, 0)) ∧
      ((∀ e ∈ table, e.pattern.length ≤ 1) →
        findMatch table m (splitPath "/x/y") = none) := by
  intro table m p body
  constructor
  · intro h
    unfold dispatch
    rw [h]
  · intro h
    apply findMatch_none
    intro e he
    unfold entryMatch
    split
    · cases hm : matchSegs e.pattern (splitPath "/x/y") with
      | none => rfl
      | some ps =>
        have hlen := matchSegs_length hm
        have h2 : (splitPath "/x/y").length = 2 := rfl
        have h1 := h e he
        omega
    · rfl

/-- Witness for C5: GET "/x/y" against the program's two single-segment
routes is a no-match answered 404 with the spy counter at zero. -/
theorem dispatch_no_match_not_found_witness :
    findMatch appTable "GET" (splitPath "/x/y") = none ∧
    (∀ e ∈ appTable, e.pattern.length ≤ 1) ∧
    dispatch appTable "GET" "/x/y" "" = (notFoundResponse, 0) := by
  refine ⟨rfl, ?_, (dispatch_no_match_not_found appTable "GET" "/x/y" "").1 rfl⟩
  intro e he
  simp only [appTable] at he
  rcases List.mem_cons.mp he with rfl | he2
  · decide
  · rcases List.mem_cons.mp he2 with rfl | he3
    · decide
    · cases he3

/-- C6: a failing handler yields exactly one internal-error response, and
the failure never crosses the Dispatcher boundary — every request in any
batch the Server Loop processes still receives exactly its own dispatch
result. -/
theorem dispatch_handler_failure_contained :
    ∀ (table : List RouteEntry) (m p body : String) (e : RouteEntry)
      (ps : List (String × String)) (err : String),
      findMatch table m (splitPath p) = some (e, ps) →
      e.handler ⟨m, p, ps, body⟩ = .error err →
      dispatch table m p body = (internalErrorResponse, 1) ∧
      ∀ (reqs : List Request) (j : Nat),
        (serverLoop table reqs)[j]? = (reqs[j]?).map (handle table) := by
  intro table m p body e ps err hfm hh
  constructor
  · simp only [dispatch, hfm, hh]
  · intro reqs j
    unfold serverLoop
    exact List.getElem?_map ..

/-- Witness for C6 at a table whose only handler always fails. -/
theorem dispatch_handler_failure_contained_witness :
    findMatch failTable "GET" (splitPath "/") =
      some (⟨"GET", [], boomHandler⟩, []) ∧
    (⟨"GET", [], boomHandler⟩ : RouteEntry).handler ⟨"GET", "/", [], ""⟩ =
      .error "boom" ∧
    dispatch failTable "GET" "/" "" = (internalErrorResponse, 1) :=
  ⟨rfl, rfl,
   (dispatch_handler_failure_contained failTable "GET" "/" ""
     ⟨"GET", [], boomHandler⟩ [] "boom" rfl rfl).1⟩

/-- C7: if binding the listen address fails at startup, main propagates the
bind error as the process result, the exit status is non-zero (1), and
serving never begins. -/
theorem bind_failure_fatal :
    ∀ {σ : Type} (bindTo : String → Except String σ)
      (run : σ → Except String Unit) (err : String),
      bindTo bindAddr = .error err →
      mainModel bindTo run = (.error err, false) ∧
      exitCode (mainModel bindTo run).1 = 1 := by
  intro σ bindTo run err h
  unfold mainModel
  rw [h]
  exact ⟨rfl, rfl⟩

/-- Witness for C7 at a transport whose bind always fails. -/
theorem bind_failure_fatal_witness :
    (fun _ : String => (.error "address in use" : Except String Unit))
        bindAddr = .error "address in use" ∧
    mainModel (fun _ : String => (.error "address in use" : Except String Unit))
        (fun _ => .ok ()) = (.error "address in use", false) ∧
    exitCode (mainModel
        (fun _ : String => (.error "address in use" : Except String Unit))
        (fun _ => .ok ())).1 = 1 := by
  refine ⟨rfl, ?_, ?_⟩
  · exact (@bind_failure_fatal Unit (fun _ => .error "address in use")
      (fun _ => .ok ()) "address in use" rfl).1
  · exact (@bind_failure_fatal Unit (fun _ => .error "address in use")
      (fun _ => .ok ()) "address in use" rfl).2

/-- C9: dispatch is deterministic and idempotent — identical requests at any
two positions of a served batch receive identical responses. -/
theorem dispatch_deterministic :
    ∀ (table : List RouteEntry) (reqs : List Request) (i j : Nat),
      reqs[i]? = reqs[j]? →
      (serverLoop table reqs)[i]? = (serverLoop table reqs)[j]? := by
  intro table reqs i j h
  unfold serverLoop
  rw [List.getElem?_map, List.getElem?_map, h]

/-- Witness for C9: the same GET "/Ada" request served twice gets the same
response twice. -/
theorem dispatch_deterministic_witness :
    ([⟨"GET", "/Ada", ""⟩, ⟨"GET", "/Ada", ""⟩] : List Request)[0]? =
      ([⟨"GET", "/Ada", ""⟩, ⟨"GET", "/Ada", ""⟩] : List Request)[1]? ∧
    (serverLoop appTable [⟨"GET", "/Ada", ""⟩, ⟨"GET", "/Ada", ""⟩])[0]? =
      (serverLoop appTable [⟨"GET", "/Ada", ""⟩, ⟨"GET", "/Ada", ""⟩])[1]? :=
  ⟨rfl,
   dispatch_deterministic appTable
     [⟨"GET", "/Ada", ""⟩, ⟨"GET", "/Ada", ""⟩] 0 1 rfl⟩

/-- C10: the program's only handler `greet` is total and never fails — it
always answers 200 with "Hello \x7bx\x7d!" where x is the "name" parameter or
"World" — so dispatch over the program's route table never reaches the
internal-error branch: every response has status 404 or 200. -/
theorem greet_total_no_internal_error :
    (∀ ctx : RequestContext,
      greet ctx = .ok ⟨200, [],
        "Hello " ++ ((List.lookup "name" ctx.params).getD "World") ++ "!"⟩) ∧
    ∀ m p body : String,
      (dispatch appTable m p body).1.status = 404 ∨
      (dispatch appTable m p body).1.status = 200 := by
  constructor
  · intro ctx
    rfl
  · intro m p body
    cases hfm : findMatch appTable m (splitPath p) with
    | none =>
      left
      simp [dispatch, hfm, notFoundResponse]
    | some eps =>
      obtain ⟨e, ps⟩ := eps
      have he : e ∈ appTable := findMatch_mem hfm
      have hh : e.handler = greet := by
        simp only [appTable] at he
        rcases List.mem_cons.mp he with rfl | he2
        · rfl
        · rcases List.mem_cons.mp he2 with rfl | he3
          · rfl
          · cases he3
      right
      simp [dispatch, hfm, hh, greet]

end MiniHttp
